import Mathlib

/-!
Verification of the call-dispatch, build, context-propagation, weight-tracking
and graph-assembly core of `tf_keras` (shallow embedding of
`tf_keras/engine/base_layer.py` and of the graph-assembly behaviour pinned by
`tf_keras/engine/functional_test.py`).

Python objects are modelled by their identity (`Nat` ids), tensors by tagged
leaves carrying a dtype, and `tf.nest` structures by finite trees.
Fallible code returns `Except`; in-place mutation is explicit state passing.
-/

namespace TFKeras

/-! ## Common: `tf.nest` structures and dtypes -/

/-- Tree mirroring an arbitrarily nested Python structure
(lists/tuples/dicts of leaves), as consumed by `tf.nest.flatten`.
A Python list `[x, y, z]` is `cons x (cons y (cons z nil))`; dict values are
flattened in key order, so a dict is modelled the same way. -/
inductive Nest (α : Type) where
  | leaf : α → Nest α
  | nil : Nest α
  | cons : Nest α → Nest α → Nest α
deriving Repr, DecidableEq

/-- Embedding of `tf.nest.flatten`: the left-to-right list of leaves. -/
def flattenNest {α : Type} : Nest α → List α
  | .leaf a => [a]
  | .nil => []
  | .cons h t => flattenNest h ++ flattenNest t

/-- Embedding of `tf.nest.map_structure`: apply `f` to every leaf. -/
def mapNest {α : Type} (f : α → α) : Nest α → Nest α
  | .leaf a => .leaf (f a)
  | .nil => .nil
  | .cons h t => .cons (mapNest f h) (mapNest f t)

/-- Tensor element types relevant to the dtype policy
(`tf_keras/mixed_precision/policy.py` collaborator), with their floatness. -/
inductive TDType where
  | f16 | bf16 | f32 | f64 | i32 | i64 | b8
deriving Repr, DecidableEq

/-- Embedding of `tf.DType.is_floating`. -/
def TDType.isFloating : TDType → Bool
  | .f16 => true
  | .bf16 => true
  | .f32 => true
  | .f64 => true
  | _ => false

/-! ## Layer call dispatch (`Layer.__call__`, base_layer.py:1007-1166)

The leaves a layer call can receive: symbolic `KerasTensor`s, concrete
`tf.Tensor`s / numpy arrays / Python scalars, or other objects. -/

inductive PyLeaf where
  | kerasTensor (tid : Nat)
  | tfTensor (dtype : TDType)
  | npArray (dtype : TDType)
  | pyFloat
  | pyInt
  | pyNone
  | pyOther
deriving Repr, DecidableEq

/-- Embedding of `isinstance(tensor, keras_tensor.KerasTensor)`. -/
def PyLeaf.isKerasTensor : PyLeaf → Bool
  | .kerasTensor _ => true
  | _ => false

/-- Embedding of `_in_functional_construction_mode` (base_layer.py:3849-3856):
`any(isinstance(t, KerasTensor) for t in tf.nest.flatten([inputs, args,
kwargs]))`. -/
def inFunctionalConstructionMode (inputs args kwargs : Nest PyLeaf) : Bool :=
  (flattenNest (.cons inputs (.cons args (.cons kwargs .nil)))).any
    PyLeaf.isKerasTensor

/-- The two execution disciplines behind `Layer.__call__`. -/
inductive CallMode where
  | functionalConstruction
  | immediate
deriving Repr, DecidableEq

/-- Class-level configuration of a layer: what its (user-written) `build` and
`call` bodies do.  `buildNumParams` is how many variables `build` creates;
`callReturnsNone` models a `call` body that returns `None`; `callRaises`
models a `call` body that raises. -/
structure LayerCfg where
  buildNumParams : Nat
  callReturnsNone : Bool
  callRaises : Bool
deriving Repr, DecidableEq

/-- Mutable per-instance state of a layer touched by `__call__`:
the `built` flag, the owned parameters (by identity), a fresh-id counter for
parameter allocation, and a count of executed `build` calls (for the
build-exactly-once property). -/
structure LayerSt where
  name : String
  built : Bool
  buildCount : Nat
  paramIds : List Nat
  nextParamId : Nat
deriving Repr, DecidableEq

/-- A freshly constructed layer (`Layer.__init__` leaves `built = False` and
no weights). -/
def freshLayer (name : String) : LayerSt :=
  { name := name, built := false, buildCount := 0, paramIds := [],
    nextParamId := 0 }

/-- Embedding of `Layer._maybe_build` (base_layer.py:3104-3141): if `built` is
false, run the user `build` (which allocates `buildNumParams` fresh
variables), then `Layer.build` (base_layer.py:478-495) records the input
shape and sets `built = True`.  If `built` is already true, nothing happens. -/
def maybeBuild (cfg : LayerCfg) (st : LayerSt) : LayerSt :=
  if st.built then st
  else
    { st with
      paramIds :=
        st.paramIds ++ (List.range cfg.buildNumParams).map (st.nextParamId + ·),
      nextParamId := st.nextParamId + cfg.buildNumParams,
      built := true,
      buildCount := st.buildCount + 1 }

/-- Errors surfaced by `Layer.__call__`. -/
inductive LayerCallErr where
  /-- the user `call` body raised -/
  | callBodyRaised (layerName : String)
  /-- base_layer.py:2670-2675: a layer call method should return a Tensor or a
  list of Tensors, not None (the message names the layer) -/
  | callOutputIsNone (layerName : String)
deriving Repr, DecidableEq

/-- What `Layer.__call__` hands back to the caller. -/
inductive CallOutcome where
  | outputs (outs : Nest PyLeaf)
  /-- `__call__` returned Python `None` (no exception was raised) -/
  | noneReturned
  | raised (e : LayerCallErr)
deriving Repr, DecidableEq

/-- The user `call` body: raises, returns `None`, or returns outputs
(modelled, like an identity layer, as returning the input structure; the
body is user code and its exact outputs are irrelevant to the dispatcher). -/
def runCallBody (cfg : LayerCfg) (st : LayerSt) (inputs : Nest PyLeaf) :
    CallOutcome :=
  if cfg.callRaises then .raised (.callBodyRaised st.name)
  else if cfg.callReturnsNone then .noneReturned
  else .outputs inputs

/-- Embedding of `Layer.__call__` (base_layer.py:1007-1166) together with the
two paths it dispatches to.

graph-assembly path — `_functional_construction_call`
(base_layer.py:2555-2689) via `_keras_tensor_symbolic_call` and
`_infer_output_signature` (base_layer.py:2470-2559): builds the layer
(`_maybe_build`, base_layer.py:2548), traces `call` on placeholders, and
raises `ValueError` naming the layer when `call` produced `None`
(base_layer.py:2670-2675).

immediate path — the eager remainder of `__call__`
(base_layer.py:1069-1166): builds the layer if needed
(base_layer.py:1146-1147), runs `call_fn` and returns its result as-is
(base_layer.py:1155-1166); there is no `None` check on this path.

Mask handling, input conversion, context-argument plumbing and node metadata
do not affect the dispatched mode, the build-once behaviour or the
`None`-output handling and are modelled elsewhere / elided here. -/
def layerCall (cfg : LayerCfg) (st : LayerSt)
    (inputs args kwargs : Nest PyLeaf) :
    CallOutcome × LayerSt × CallMode :=
  if inFunctionalConstructionMode inputs args kwargs then
    -- `_functional_construction_call`: `_maybe_build` then trace `call`;
    -- a `None` output raises `ValueError` naming the layer.
    let st1 := maybeBuild cfg st
    match runCallBody cfg st1 inputs with
    | .raised e => (.raised e, st1, .functionalConstruction)
    | .noneReturned =>
        (.raised (.callOutputIsNone st1.name), st1, .functionalConstruction)
    | .outputs o => (.outputs o, st1, .functionalConstruction)
  else
    -- eager path of `__call__`: `if not self.built: self._maybe_build(inputs)`
    -- then `outputs = call_fn(...)`; the result is returned unchecked.
    let st1 := if !st.built then maybeBuild cfg st else st
    (runCallBody cfg st1 inputs, st1, .immediate)

/-! ## Call-context argument propagation
(`Layer._get_propagated_call_context_arguments`, base_layer.py:2691-2784) -/

/-- How one call of the chain provides a declared context argument (e.g.
`training`): whether it was passed at all (`CallFunctionSpec.arg_was_passed`),
the value passed (Python allows an explicit `None`, modelled as `none`), and
the declared non-`None` default from the `call` signature
(`CallFunctionSpec.get_context_arg_default`). -/
structure CtxCall (V : Type) where
  passed : Bool
  value : Option V
  dflt : Option V

/-- First non-absent value of a list of candidates (priority order). -/
def firstSome {V : Type} : List (Option V) → Option V
  | [] => none
  | some v :: _ => some v
  | none :: rest => firstSome rest

/-- Modelled from the spec: `CallContext.get_call_context_arg` lives in
`base_layer_utils.py`, which is not part of the sources; per spec §4.3 the
resolver walks outward from the innermost open frame until a non-absent value
is found.  A frame holds the value the enclosing layer propagated for the
argument (`none` when the enclosing resolution produced no value; the
`propagated` dict of base_layer.py:2781-2782 only records non-`None`
values). -/
def ctxLookup {V : Type} : List (Option V) → Option V
  | [] => none
  | some v :: _ => some v
  | none :: rest => ctxLookup rest

/-- Embedding of the per-argument resolution in
`Layer._get_propagated_call_context_arguments` (base_layer.py:2717-2767), for
a layer whose `call` declares the argument (`_expects_context_arg` true):
(1) a value explicitly passed to this call, when not `None`;
(2) else the value held by the enclosing call context;
(3) else, for `training` only, the process-wide
    `backend.learning_phase()` when `global_learning_phase_is_set()`;
(4) else the declared default from the `call` signature.
The result is what `set_arg_value` makes visible to `call`, and what is
entered into the `propagated` dict handed to `call_context.enter`. -/
def resolveContextArg {V : Type} (isTraining : Bool) (globalPhase : Option V)
    (ctxVal : Option V) (c : CtxCall V) : Option V :=
  let authoritative := if c.passed then c.value else none
  match authoritative with
  | some v => some v
  | none =>
    match ctxVal with
    | some v => some v
    | none =>
      if isTraining && globalPhase.isSome then globalPhase
      else c.dflt

/-- The call-context stack after a chain of nested calls has been entered,
outermost call first: each call resolves the argument against the stack so
far and pushes its resolved value as a new innermost frame
(`call_context.enter(..., call_context_args=propagated)`,
base_layer.py:1116-1121 and 2646-2651). -/
def stackAfter {V : Type} (isTraining : Bool) (globalPhase : Option V)
    (stack : List (Option V)) : List (CtxCall V) → List (Option V)
  | [] => stack
  | c :: rest =>
    stackAfter isTraining globalPhase
      (resolveContextArg isTraining globalPhase (ctxLookup stack) c :: stack)
      rest

/-- The value a layer nested below the chain `calls` observes for the
argument when invoked as described by `inner`. -/
def observedValue {V : Type} (isTraining : Bool) (globalPhase : Option V)
    (stack : List (Option V)) (calls : List (CtxCall V)) (inner : CtxCall V) :
    Option V :=
  resolveContextArg isTraining globalPhase
    (ctxLookup (stackAfter isTraining globalPhase stack calls)) inner

/-! ## Graph assembly validation
(`Functional._init_graph_network` / `_map_graph_network`; only its tests are
part of the sources: `functional_test.py:726-765` (`test_invalid_graphs`) and
`functional_test.py:1518-1529` (`test_disconnected_inputs`)). -/

/-- Modelled from the spec: an invocation record ("Node", spec §3/§4.2) of the
graph assembler, which is not under the sources.  It records which tensor ids
the traced call consumed and which it produced.  A tensor with no producing
node is a placeholder created by `Input`. -/
structure GNode where
  nodeInputs : List Nat
  nodeOutputs : List Nat
deriving Repr, DecidableEq

/-- The node producing tensor `t`, if any. -/
def producerOf (nodes : List GNode) (t : Nat) : Option GNode :=
  nodes.find? (fun n => n.nodeOutputs.contains t)

/-- Modelled from the spec: the depth-first reverse walk of spec §4.2 — a
tensor is computable from the requested inputs when it is one of them, or
when some node produces it and all of that node's input tensors are
computable.  `fuel` bounds the walk depth (the graphs are finite and
acyclic). -/
def computableT (nodes : List GNode) (inputs : List Nat) :
    Nat → Nat → Bool
  | 0, _ => false
  | fuel + 1, t =>
    inputs.contains t ||
      match producerOf nodes t with
      | some n => n.nodeInputs.all (computableT nodes inputs fuel)
      | none => false

/-- Modelled from the spec: whether tensor `t` is reachable by the reverse
walk started at `root` (i.e. `root` depends on `t`). -/
def dependsOnT (nodes : List GNode) : Nat → Nat → Nat → Bool
  | 0, _, _ => false
  | fuel + 1, root, t =>
    root == t ||
      match producerOf nodes root with
      | some n => n.nodeInputs.any (fun i => dependsOnT nodes fuel i t)
      | none => false

/-- Modelled from the spec: tensor `t` is reachable from some requested
output. -/
def reachableFromOutputs (nodes : List GNode) (outputs : List Nat) (t : Nat) :
    Bool :=
  outputs.any (fun o => dependsOnT nodes (nodes.length + 1) o t)

/-- Whether a list of tensor references contains a duplicate. -/
def hasDupId : List Nat → Bool
  | [] => false
  | x :: xs => xs.contains x || hasDupId xs

/-- Validation errors of graph assembly (spec §4.2). -/
inductive AssembleErr where
  | redundantInputs
  | disconnectedGraph
deriving Repr, DecidableEq

/-- Modelled from the spec: the validation step of
`assemble(input_refs, output_refs, name)` (spec §4.2), with the check
directions pinned by the repository's own tests: duplicated entries in the
input list are rejected (`test_invalid_graphs`, "redundant inputs"); a
requested output that cannot be computed from the requested inputs is
rejected (`test_invalid_graphs`, `Model([j], [m, n])`, "disconnected
graph"); repeated outputs are accepted (`test_invalid_graphs`, "redundant
outputs"); and an extra input unused by the outputs is accepted
(`test_disconnected_inputs`). -/
def assembleGraph (nodes : List GNode) (inputs outputs : List Nat) :
    Except AssembleErr Unit :=
  if hasDupId inputs then .error .redundantInputs
  else if outputs.all (computableT nodes inputs (nodes.length + 1)) then
    .ok ()
  else .error .disconnectedGraph

/-! ## Autocast input casting
(`Layer._maybe_cast_inputs`, base_layer.py:2837-2882) and weight storage
dtype (`Layer.add_weight`, base_layer.py:595-752). -/

/-- Dtype policy: compute dtype and variable (storage) dtype
(`Policy.compute_dtype` / `Policy.variable_dtype`; `none` models the
`_infer` policy whose dtypes are `None`). -/
structure DtypePolicy where
  computeDtype : Option TDType
  variableDtype : Option TDType
deriving Repr, DecidableEq

/-- Leaves reaching `_maybe_cast_inputs`: `_AUTOCAST_TYPES` members
(`tf.Tensor`, `tf.SparseTensor`, `tf.RaggedTensor`), each carrying a dtype,
or a non-tensor leaf. -/
inductive CastLeaf where
  | tensor (d : TDType)
  | sparse (d : TDType)
  | ragged (d : TDType)
  | nonTensor
deriving Repr, DecidableEq

/-- Embedding of `Layer._should_cast_single_input` (base_layer.py:2868-2875):
a member of `_AUTOCAST_TYPES` is cast when a compute dtype is set, the leaf
dtype differs from it, and the leaf dtype is floating. -/
def shouldCastSingleInput (pol : DtypePolicy) : CastLeaf → Bool
  | .tensor d | .sparse d | .ragged d =>
    match pol.computeDtype with
    | some c => d ≠ c && d.isFloating
    | none => false
  | .nonTensor => false

/-- Embedding of `Layer._cast_single_input` (base_layer.py:2877-2882). -/
def castSingleInput (pol : DtypePolicy) (x : CastLeaf) : CastLeaf :=
  if shouldCastSingleInput pol x then
    match x, pol.computeDtype with
    | .tensor _, some c => .tensor c
    | .sparse _, some c => .sparse c
    | .ragged _, some c => .ragged c
    | x, _ => x
  else x

/-- Embedding of `Layer._maybe_cast_inputs` (base_layer.py:2837-2866):
casting happens only when the autocast flag is set, a compute dtype object
exists and is floating, and some input would actually be cast; then every
leaf goes through `_cast_single_input`. -/
def maybeCastInputs (autocast : Bool) (pol : DtypePolicy)
    (inputs : Nest CastLeaf) : Nest CastLeaf :=
  let shouldAutocast :=
    autocast && pol.computeDtype.isSome &&
      (match pol.computeDtype with
       | some c => c.isFloating
       | none => false)
  if shouldAutocast &&
      (flattenNest inputs).any (shouldCastSingleInput pol) then
    mapNest (castSingleInput pol) inputs
  else inputs

/-- Embedding of the dtype selection of `Layer.add_weight`
(base_layer.py:640-642): `if dtype is None: dtype = self.dtype or
backend.floatx()`, where `self.dtype` is the policy's variable dtype; the
underlying variable is created at this dtype (an `AutoCastVariable` wrapper
added at base_layer.py:687-709 changes reads, not storage). -/
def addWeightStorageDtype (pol : DtypePolicy) (explicit : Option TDType) :
    TDType :=
  match explicit with
  | some d => d
  | none =>
    match pol.variableDtype with
    | some d => d
    | none => .f32

/-! ## Saving and loading own variables
(`Layer.save_own_variables` / `Layer.load_own_variables`,
base_layer.py:3620-3653). -/

/-- A variable owned by a layer: its name and current value (values are
opaque to the store logic; `Int` stands in for the numpy payload). -/
structure StoreVar where
  vname : String
  value : Int
deriving Repr, DecidableEq

/-- A layer as seen by the persisted-state collaborator: its own trainable
and non-trainable variable lists. -/
structure VarLayer where
  name : String
  trainableVars : List StoreVar
  nonTrainableVars : List StoreVar
deriving Repr, DecidableEq

/-- Embedding of `Layer.save_own_variables` (base_layer.py:3620-3631): the
store maps the ordinal position in the trainable-then-non-trainable order to
the variable value. -/
def saveOwnVariables (l : VarLayer) : List Int :=
  ((l.trainableVars ++ l.nonTrainableVars).map (·.value))

/-- Error raised by `load_own_variables` (base_layer.py:3644-3650): the
layer name, the expected variable count and the received value count. -/
inductive LoadErr where
  | varCountMismatch (layerName : String) (expected received : Nat)
deriving Repr, DecidableEq

/-- Embedding of `Layer.load_own_variables` (base_layer.py:3633-3653): raise
when the number of stored values differs from the layer's variable count,
else assign each variable by ordinal position in the
trainable-then-non-trainable order. -/
def loadOwnVariables (l : VarLayer) (store : List Int) :
    Except LoadErr VarLayer :=
  let allVars := l.trainableVars ++ l.nonTrainableVars
  if store.length ≠ allVars.length then
    .error (.varCountMismatch l.name allVars.length store.length)
  else
    let assigned := allVars.zipWith (fun v x => { v with value := x }) store
    .ok { l with
          trainableVars := assigned.take l.trainableVars.length,
          nonTrainableVars := assigned.drop l.trainableVars.length }

/-! ## Attribute tracking with reference counts
(`Layer.__delattr__`, base_layer.py:3194-3253 and `Layer.__setattr__`,
base_layer.py:3255-3354). -/

/-- The kinds of object whose assignment a layer tracks: sub-layers (or other
weight-bearing `tf.Module`s), trainable / non-trainable variables, and plain
untracked objects. -/
inductive ObjKind where
  | layerObj
  | varTrainable
  | varNonTrainable
  | plainObj
deriving Repr, DecidableEq

/-- A Python object, by identity (`id(obj)`) plus its tracking-relevant
kind. -/
structure PyObj where
  oid : Nat
  kind : ObjKind
deriving Repr, DecidableEq

/-- Attribute map of a layer instance (name to object). -/
def AttrMap := List (String × PyObj)

/-- Reference-count map keyed by object identity
(`_obj_reference_counts_dict`, an `ObjectIdentityDictionary`,
base_layer.py:3169-3175). -/
def RefCounts := List (Nat × Nat)

/-- Lookup an attribute (`getattr(self, name, None)`). -/
def attrGet (attrs : List (String × PyObj)) (name : String) : Option PyObj :=
  match attrs.find? (fun p => p.1 == name) with
  | some p => some p.2
  | none => none

/-- Remove an attribute (`object.__delattr__`). -/
def attrRemove (attrs : List (String × PyObj)) (name : String) :
    List (String × PyObj) :=
  attrs.filter (fun p => p.1 ≠ name)

/-- Set an attribute (`object.__setattr__`). -/
def attrSet (attrs : List (String × PyObj)) (name : String) (v : PyObj) :
    List (String × PyObj) :=
  (name, v) :: attrRemove attrs name

/-- Lookup in the reference-count map. -/
def rcGet (rc : List (Nat × Nat)) (k : Nat) : Option Nat :=
  match rc.find? (fun p => p.1 == k) with
  | some p => some p.2
  | none => none

/-- Update the reference-count map at a key. -/
def rcSet (rc : List (Nat × Nat)) (k : Nat) (v : Nat) : List (Nat × Nat) :=
  (k, v) :: rc.filter (fun p => p.1 ≠ k)

/-- Delete a key of the reference-count map. -/
def rcRemove (rc : List (Nat × Nat)) (k : Nat) : List (Nat × Nat) :=
  rc.filter (fun p => p.1 ≠ k)

/-- Python `list.insert(i, x)`. -/
def listInsertAt (l : List Nat) (i : Nat) (x : Nat) : List Nat :=
  l.take i ++ x :: l.drop i

/-- Index of the first entry identical to `x`
(`_get_variable_from_list`, base_layer.py:3293-3300). -/
def idxOfId (l : List Nat) (x : Nat) : Option Nat :=
  l.findIdx? (fun w => w == x)

/-- Tracking state of one layer instance: its attribute map, the
reference-count map, `_self_tracked_trackables`, `_trainable_weights` and
`_non_trainable_weights` (the two weight lists by object identity). -/
structure TrackState where
  attrs : List (String × PyObj)
  refCounts : List (Nat × Nat)
  trackedTrackables : List Nat
  trainableWs : List Nat
  nonTrainableWs : List Nat
deriving Repr, DecidableEq

/-- Embedding of `Layer.__delattr__` (base_layer.py:3194-3253): look up the
existing value; when it has no reference count, plain-delete; when the count
exceeds one, decrement and plain-delete, leaving every tracked collection
unchanged; when this was the last reference, drop the count, delete the
attribute, and filter the object out of `_self_tracked_trackables` (layers /
weight-bearing objects) and of both weight lists (variables).  Deleting an
attribute that is not set leaves the state unchanged (the
`AttributeError` is swallowed by `__setattr__`'s `try`/`except` caller). -/
def delattrL (s : TrackState) (name : String) : TrackState :=
  match attrGet s.attrs name with
  | none => { s with attrs := attrRemove s.attrs name }
  | some obj =>
    match rcGet s.refCounts obj.oid with
    | none => { s with attrs := attrRemove s.attrs name }
    | some rc =>
      if rc > 1 then
        { s with
          refCounts := rcSet s.refCounts obj.oid (rc - 1),
          attrs := attrRemove s.attrs name }
      else
        let s1 :=
          { s with
            refCounts := rcRemove s.refCounts obj.oid,
            attrs := attrRemove s.attrs name }
        let s2 :=
          if obj.kind = .layerObj then
            { s1 with
              trackedTrackables :=
                s1.trackedTrackables.filter (fun l => l ≠ obj.oid) }
          else s1
        if obj.kind = .varTrainable ∨ obj.kind = .varNonTrainable then
          { s2 with
            trainableWs := s2.trainableWs.filter (fun w => w ≠ obj.oid),
            nonTrainableWs :=
              s2.nonTrainableWs.filter (fun w => w ≠ obj.oid) }
        else s2

/-- Position bookkeeping of `__setattr__` (base_layer.py:3284-3313): when a
variable replaces a variable, remember the old variable's position so the
new one lands in the same slot.  For a trainable old variable the position
comes from `_trainable_weights`; the non-trainable branch of
base_layer.py:3307-3311 consults the freshly-created empty
`_non_trainable_variable` list (not `_non_trainable_weights`), so it always
yields no position. -/
def positionOfReplaced (s : TrackState) (name : String) (value : PyObj) :
    Option Nat :=
  match value.kind, attrGet s.attrs name with
  | .varTrainable, some old =>
    if old.kind = .varTrainable then idxOfId s.trainableWs old.oid
    else none
  | .varNonTrainable, some old =>
    if old.kind = .varTrainable then idxOfId s.trainableWs old.oid
    else none
  | _, _ => none

/-- Tracking phase of `__setattr__`: append a sub-layer to
`_self_tracked_trackables` when absent (base_layer.py:3329-3343), and a
variable to the matching weight list when absent (`_track_variable`,
base_layer.py:3376-3396), inserting at the remembered position when one was
found. -/
def trackLayerPhase (s : TrackState) (value : PyObj) : TrackState :=
  if value.kind = .layerObj then
    if s.trackedTrackables.contains value.oid then s
    else { s with
           trackedTrackables := s.trackedTrackables ++ [value.oid] }
  else s

def trackVariablePhase (s : TrackState) (value : PyObj)
    (position : Option Nat) : TrackState :=
  match value.kind with
  | .varTrainable =>
    if s.trainableWs.contains value.oid then s
    else
      match position with
      | none => { s with trainableWs := s.trainableWs ++ [value.oid] }
      | some i =>
        { s with trainableWs := listInsertAt s.trainableWs i value.oid }
  | .varNonTrainable =>
    if s.nonTrainableWs.contains value.oid then s
    else
      match position with
      | none =>
        { s with nonTrainableWs := s.nonTrainableWs ++ [value.oid] }
      | some i =>
        { s with
          nonTrainableWs := listInsertAt s.nonTrainableWs i value.oid }
  | _ => s

def trackNewValue (s : TrackState) (value : PyObj) (position : Option Nat) :
    TrackState :=
  trackVariablePhase (trackLayerPhase s value) value position

/-- Embedding of `Layer.__setattr__` (base_layer.py:3255-3354) for a plain
attribute name (not a property, with attribute tracking enabled): increment
the new value's reference count (base_layer.py:3281-3282); remember the
replaced variable's position; clean out the old attribute via `__delattr__`
(base_layer.py:3315-3320, the `AttributeError` of a missing attribute being
swallowed); track the new value; finally set the attribute. -/
def setattrL (s : TrackState) (name : String) (value : PyObj) : TrackState :=
  let rc0 := (rcGet s.refCounts value.oid).getD 0
  let s1 := { s with refCounts := rcSet s.refCounts value.oid (rc0 + 1) }
  let position := positionOfReplaced s1 name value
  let s2 := delattrL s1 name
  let s4 := trackNewValue s2 value position
  { s4 with attrs := attrSet s4.attrs name value }

/-! ## Weight gathering
(`Layer.trainable_weights` / `non_trainable_weights` / `weights`,
base_layer.py:1356-1410, and `Layer._dedup_weights`,
base_layer.py:3511-3519). -/

/-- A layer with its trainable flag, its own weight buckets (variables by
identity) and its directly tracked sub-layers. -/
inductive LayerTree where
  | mk (trainable : Bool) (ownTrainable : List Nat)
       (ownNonTrainable : List Nat) (children : List LayerTree)

/-- Embedding of `Layer._dedup_weights` (base_layer.py:3511-3519): keep the
first occurrence of each identity. -/
def dedupWeights (ws : List Nat) : List Nat :=
  go [] ws
where
  go (seen : List Nat) : List Nat → List Nat
    | [] => []
    | w :: rest =>
      if seen.contains w then go seen rest
      else w :: go (w :: seen) rest

mutual

/-- Embedding of `Layer.trainable_weights` (base_layer.py:1356-1374): when
`trainable`, the deduplicated own trainable weights followed by the
children's `trainable_variables`; else the empty list. -/
def layerTrainableWeights : LayerTree → List Nat
  | .mk true ot _ cs => dedupWeights (ot ++ gatherTrainable cs)
  | .mk false _ _ _ => []

/-- Children contribution to `trainable_weights`
(`_gather_children_attribute("trainable_variables")`,
base_layer.py:3398-3413). -/
def gatherTrainable : List LayerTree → List Nat
  | [] => []
  | c :: cs => layerTrainableWeights c ++ gatherTrainable cs

/-- Embedding of `Layer.non_trainable_weights` (base_layer.py:1376-1401):
when `trainable`, the deduplicated own non-trainable weights followed by the
children's `non_trainable_variables`; when frozen, the deduplicated own
trainable and non-trainable weights followed by the children's
`variables`. -/
def layerNonTrainableWeights : LayerTree → List Nat
  | .mk true _ ont cs => dedupWeights (ont ++ gatherNonTrainable cs)
  | .mk false ot ont cs => dedupWeights (ot ++ ont ++ gatherVariables cs)

/-- Children contribution to `non_trainable_weights` of a trainable layer
(`_gather_children_attribute("non_trainable_variables")`). -/
def gatherNonTrainable : List LayerTree → List Nat
  | [] => []
  | c :: cs => layerNonTrainableWeights c ++ gatherNonTrainable cs

/-- Children contribution for a frozen layer
(`_gather_children_attribute("variables")`, where `variables` aliases
`weights`, base_layer.py:2310-2331). -/
def gatherVariables : List LayerTree → List Nat
  | [] => []
  | c :: cs =>
    (layerTrainableWeights c ++ layerNonTrainableWeights c) ++
      gatherVariables cs

end

/-- Embedding of `Layer.weights` (base_layer.py:1403-1410):
`trainable_weights + non_trainable_weights` (plain concatenation). -/
def layerWeights (l : LayerTree) : List Nat :=
  layerTrainableWeights l ++ layerNonTrainableWeights l

/-- The trainable flag of a layer. -/
def LayerTree.trainable : LayerTree → Bool
  | .mk t _ _ _ => t

/-- The layer's own `_trainable_weights` bucket. -/
def LayerTree.ownTrainable : LayerTree → List Nat
  | .mk _ ot _ _ => ot

/-- The layer's own `_non_trainable_weights` bucket. -/
def LayerTree.ownNonTrainable : LayerTree → List Nat
  | .mk _ _ ont _ => ont

/-- The layer's directly tracked sub-layers. -/
def LayerTree.children : LayerTree → List LayerTree
  | .mk _ _ _ cs => cs

/-! ## Bulk weight assignment (`Layer.set_weights`, base_layer.py:1802-1889) -/

/-- A weight of a layer as `set_weights` sees it: an ordinary variable with a
static shape and a current value, or a `TrackableWeightHandler` standing for
`num_tensors` opaque tensors (base_layer.py:1844-1849). -/
inductive WParam where
  | normalVar (shape : List Nat) (value : Int)
  | handlerW (numTensors : Nat) (values : List Int)
deriving Repr, DecidableEq

/-- A value provided to `set_weights`: its shape and payload. -/
structure WVal where
  shape : List Nat
  value : Int
deriving Repr, DecidableEq

/-- A layer as `set_weights` sees it. -/
structure WLayer where
  name : String
  wparams : List WParam
deriving Repr, DecidableEq

/-- Embedding of the expected-weight count of `set_weights`
(base_layer.py:1844-1849). -/
def expectedNumWeights : List WParam → Nat
  | [] => 0
  | .normalVar _ _ :: ps => 1 + expectedNumWeights ps
  | .handlerW k _ :: ps => k + expectedNumWeights ps

/-- Errors raised by `set_weights`. -/
inductive SetWErr where
  | lengthMismatch (layerName : String) (received expected : Nat)
  | shapeMismatch (layerName : String) (refShape given : List Nat)
deriving Repr, DecidableEq

/-- Embedding of the assignment loop of `set_weights`
(base_layer.py:1864-1885): `TrackableWeightHandler`s consume their tensors
and are assigned immediately inside the loop (`param.set_weights(tensors)`,
base_layer.py:1870); ordinary variables are shape-checked
(`ref_shape.is_compatible_with(weight_shape)`, modelled as shape equality for
fully-known shapes) and only collected, the collected values being assigned
after the loop by `backend.batch_set_value` (base_layer.py:1885).  On a shape
error the exception propagates with every handler before the error point
already mutated and every ordinary variable unchanged: the error value
carries the parameter list as left behind. -/
def swLoop (lname : String) :
    List WParam → List WVal → Except (SetWErr × List WParam) (List WParam)
  | [], _ => .ok []
  | .handlerW k _ :: ps, ws =>
    let newVals := (ws.take k).map (·.value)
    match swLoop lname ps (ws.drop k) with
    | .ok rest => .ok (.handlerW k newVals :: rest)
    | .error (e, rest) => .error (e, .handlerW k newVals :: rest)
  | .normalVar shape v :: ps, ws =>
    match ws with
    | [] => .ok (.normalVar shape v :: ps)
    | w :: ws' =>
      if shape = w.shape then
        match swLoop lname ps ws' with
        | .ok rest => .ok (.normalVar shape w.value :: rest)
        | .error (e, rest) => .error (e, .normalVar shape v :: rest)
      else .error (.shapeMismatch lname shape w.shape, .normalVar shape v :: ps)

/-- Embedding of `Layer.set_weights` (base_layer.py:1802-1889): first the
count check (base_layer.py:1851-1862), raised before anything is touched;
then the assignment loop.  The error value carries the layer as left
behind. -/
def setWeightsL (l : WLayer) (weights : List WVal) :
    Except (SetWErr × WLayer) WLayer :=
  let expected := expectedNumWeights l.wparams
  if weights.length ≠ expected then
    .error (.lengthMismatch l.name weights.length expected, l)
  else
    match swLoop l.name l.wparams weights with
    | .ok ps => .ok { l with wparams := ps }
    | .error (e, ps) => .error (e, { l with wparams := ps })

/-- Whether a weight entry is a `TrackableWeightHandler`. -/
def WParam.isHandler : WParam → Bool
  | .handlerW _ _ => true
  | .normalVar _ _ => false

/-- Static shape of a weight entry (handlers carry no single shape). -/
def WParam.wShape : WParam → List Nat
  | .normalVar sh _ => sh
  | .handlerW _ _ => []

/-- Current value of an ordinary variable entry. -/
def WParam.wValue : WParam → Int
  | .normalVar _ v => v
  | .handlerW _ _ => 0

/-! ## Helper lemmas -/

theorem flattenNest_mapNest {α : Type} (f : α → α) :
    ∀ t : Nest α, flattenNest (mapNest f t) = (flattenNest t).map f := by
  intro t
  induction t with
  | leaf a => rfl
  | nil => rfl
  | cons h t ih1 ih2 => simp [flattenNest, mapNest, ih1, ih2]

theorem mapNest_eq_self {α : Type} (f : α → α) :
    ∀ t : Nest α, (∀ x ∈ flattenNest t, f x = x) → mapNest f t = t := by
  intro t
  induction t with
  | leaf a =>
    intro h
    simp [mapNest, h a (by simp [flattenNest])]
  | nil => intro _; rfl
  | cons h t ih1 ih2 =>
    intro hall
    simp only [flattenNest, List.mem_append] at hall
    simp [mapNest, ih1 (fun x hx => hall x (Or.inl hx)),
      ih2 (fun x hx => hall x (Or.inr hx))]

/-! ## C1: call-mode classification -/

/-- C1: for every call of `Layer.__call__`, the call is dispatched in
graph-assembly (functional-construction) mode iff at least one leaf of the
flattened inputs, positional args, or keyword args is a symbolic
`KerasTensor`; otherwise the call executes immediately. -/
theorem call_dispatch_mode_iff_symbolic_leaf (cfg : LayerCfg) (st : LayerSt)
    (inputs args kwargs : Nest PyLeaf) :
    ((layerCall cfg st inputs args kwargs).2.2 = CallMode.functionalConstruction
      ↔ ∃ leaf ∈ flattenNest
          (Nest.cons inputs (.cons args (.cons kwargs .nil))),
          leaf.isKerasTensor = true)
    ∧ ((layerCall cfg st inputs args kwargs).2.2 = CallMode.immediate
      ↔ ¬ ∃ leaf ∈ flattenNest
          (Nest.cons inputs (.cons args (.cons kwargs .nil))),
          leaf.isKerasTensor = true) := by
  by_cases h : inFunctionalConstructionMode inputs args kwargs = true
  · have hmode :
        (layerCall cfg st inputs args kwargs).2.2
          = CallMode.functionalConstruction := by
      simp only [layerCall, h, if_true]
      split <;> rfl
    have hex : ∃ leaf ∈ flattenNest
        (Nest.cons inputs (.cons args (.cons kwargs .nil))),
        leaf.isKerasTensor = true := by
      have := h
      unfold inFunctionalConstructionMode at this
      exact List.any_eq_true.mp this
    constructor
    · exact ⟨fun _ => hex, fun _ => hmode⟩
    · rw [hmode]
      constructor
      · intro hc; cases hc
      · intro hc; exact absurd hex hc
  · have hmode :
        (layerCall cfg st inputs args kwargs).2.2 = CallMode.immediate := by
      simp only [layerCall, h, if_false]
      rfl
    have hnex : ¬ ∃ leaf ∈ flattenNest
        (Nest.cons inputs (.cons args (.cons kwargs .nil))),
        leaf.isKerasTensor = true := by
      intro hc
      exact h (List.any_eq_true.mpr hc)
    constructor
    · rw [hmode]
      constructor
      · intro hc; cases hc
      · intro hc; exact absurd hc hnex
    · exact ⟨fun _ => hnex, fun _ => hmode⟩

/-! ## C2: build runs exactly once -/

/-- C2: a freshly constructed layer invoked twice with the same inputs builds
exactly once: the first invocation leaves `built = true` and `buildCount = 1`
(set before the `call` body runs, so this holds even when `call` raises), and
the second invocation does not build again or reallocate parameters — the
whole layer state, and in particular the parameter identity list, is
unchanged. -/
theorem build_runs_exactly_once (cfg : LayerCfg) (name : String)
    (inputs args kwargs : Nest PyLeaf) :
    ((layerCall cfg (freshLayer name) inputs args kwargs).2.1.built = true)
    ∧ ((layerCall cfg (freshLayer name) inputs args kwargs).2.1.buildCount = 1)
    ∧ ((layerCall cfg
          ((layerCall cfg (freshLayer name) inputs args kwargs).2.1)
          inputs args kwargs).2.1
        = (layerCall cfg (freshLayer name) inputs args kwargs).2.1)
    ∧ ((layerCall cfg
          ((layerCall cfg (freshLayer name) inputs args kwargs).2.1)
          inputs args kwargs).2.1.paramIds
        = (layerCall cfg (freshLayer name) inputs args kwargs).2.1.paramIds) := by
  have hfresh : (freshLayer name).built = false := rfl
  have hmb : ∀ st : LayerSt, st.built = false →
      (maybeBuild cfg st).built = true
      ∧ (maybeBuild cfg st).buildCount = st.buildCount + 1 := by
    intro st hb
    unfold maybeBuild
    rw [hb]
    exact ⟨rfl, rfl⟩
  have hmb2 : ∀ st : LayerSt, st.built = true → maybeBuild cfg st = st := by
    intro st hb
    unfold maybeBuild
    rw [hb]
    rfl
  have hstate : ∀ st : LayerSt,
      (layerCall cfg st inputs args kwargs).2.1
        = if st.built then st else maybeBuild cfg st := by
    intro st
    by_cases h : inFunctionalConstructionMode inputs args kwargs = true
    · simp only [layerCall, h, if_true]
      by_cases hb : st.built = true
      · rw [if_pos hb]
        conv_rhs => rw [← hmb2 st hb]
        split <;> rfl
      · have hb' : st.built = false := by simpa using hb
        rw [if_neg (by simp [hb'])]
        split <;> rfl
    · simp only [layerCall, h, if_false]
      by_cases hb : st.built = true <;> simp [hb]
  have h1 : (layerCall cfg (freshLayer name) inputs args kwargs).2.1
      = maybeBuild cfg (freshLayer name) := by
    rw [hstate, hfresh]
    rfl
  have hbuilt : (maybeBuild cfg (freshLayer name)).built = true :=
    (hmb _ hfresh).1
  have hcount : (maybeBuild cfg (freshLayer name)).buildCount = 1 := by
    have := (hmb _ hfresh).2
    simpa [freshLayer] using this
  have h2 : (layerCall cfg (maybeBuild cfg (freshLayer name))
      inputs args kwargs).2.1 = maybeBuild cfg (freshLayer name) := by
    rw [hstate, hbuilt]
    rfl
  refine ⟨by rw [h1]; exact hbuilt, by rw [h1]; exact hcount, ?_, ?_⟩
  · rw [h1, h2]
  · rw [h1, h2]

/-! ## C5: a `None` output of `call` -/

/-- C5: the repository's intent (the `Raises` clause of `Layer.__call__`'s
own docstring, base_layer.py:1030-1032, and the check of
base_layer.py:2670-2675) is that a `call` body producing `None` raises a
`ValueError` naming the layer.  The graph-assembly path does raise it, but
the immediate (eager) path of `__call__` returns the `None` unchecked: at
the concrete failing input below, the immediate-mode invocation succeeds
with a `None` result while the same layer in graph-assembly mode raises. -/
theorem none_output_unchecked_in_immediate_mode :
    (layerCall ⟨1, true, false⟩ (freshLayer "dense")
        (.leaf (.tfTensor .f32)) .nil .nil).1 = CallOutcome.noneReturned
    ∧ (layerCall ⟨1, true, false⟩ (freshLayer "dense")
        (.leaf (.tfTensor .f32)) .nil .nil).2.2 = CallMode.immediate
    ∧ (layerCall ⟨1, true, false⟩ (freshLayer "dense")
        (.leaf (.kerasTensor 0)) .nil .nil).1
      = CallOutcome.raised (.callOutputIsNone "dense") := by
  refine ⟨rfl, rfl, rfl⟩

/-! ## C3: call-context argument propagation -/

theorem firstSome_single {V : Type} (o : Option V) : firstSome [o] = o := by
  cases o <;> rfl

theorem resolve_unset_inherits {V : Type} (isTr : Bool) (g : Option V)
    (v : V) (ctx : Option V) (c : CtxCall V)
    (hctx : ctx = some v)
    (hunset : (if c.passed then c.value else none) = none) :
    resolveContextArg isTr g ctx c = some v := by
  unfold resolveContextArg
  rw [hunset, hctx]

theorem ctxLookup_stackAfter_unset {V : Type} (isTr : Bool) (g : Option V)
    (v : V) :
    ∀ (mids : List (CtxCall V)) (stack : List (Option V)),
      ctxLookup stack = some v →
      (∀ c ∈ mids, (if c.passed then c.value else none) = none) →
      ctxLookup (stackAfter isTr g stack mids) = some v := by
  intro mids
  induction mids with
  | nil => intro stack hs _; exact hs
  | cons c rest ih =>
    intro stack hs hall
    have hc := hall c (by simp)
    have hr : resolveContextArg isTr g (ctxLookup stack) c = some v :=
      resolve_unset_inherits isTr g v _ c hs hc
    simp only [stackAfter]
    apply ih
    · rw [hr]; rfl
    · intro d hd; exact hall d (by simp [hd])

/-- C3: for every declared call-context argument the value observed by
`call` follows the strict priority order — explicit non-`None` value passed
to this call, else the value held by the nearest enclosing call context,
else (for `training` only) the process-wide sticky default when set, else
the declared default of the `call` signature.  Consequently a value set at
an outer call and left unset below reaches an inner layer at any nesting
depth, and an explicit value at the inner call always overrides the outer
one. -/
theorem call_context_priority_and_propagation {V : Type} (isTr : Bool)
    (g : Option V) :
    (∀ (ctx : Option V) (c : CtxCall V),
        resolveContextArg isTr g ctx c =
          firstSome [if c.passed then c.value else none, ctx,
                     if isTr then g else none, c.dflt])
    ∧ (∀ (stack : List (Option V)) (v : V) (outer : CtxCall V)
          (mids : List (CtxCall V)) (inner : CtxCall V),
        outer.passed = true → outer.value = some v →
        (∀ c ∈ mids, (if c.passed then c.value else none) = none) →
        (if inner.passed then inner.value else none) = none →
        observedValue isTr g stack (outer :: mids) inner = some v)
    ∧ (∀ (stack : List (Option V)) (w : V) (calls : List (CtxCall V))
          (inner : CtxCall V),
        inner.passed = true → inner.value = some w →
        observedValue isTr g stack calls inner = some w) := by
  refine ⟨?_, ?_, ?_⟩
  · intro ctx c
    unfold resolveContextArg
    cases hp : (if c.passed then c.value else none) with
    | some v => simp [firstSome]
    | none =>
      cases ctx with
      | some v => simp [firstSome]
      | none =>
        cases hg : g with
        | some gv => cases isTr <;> simp [firstSome, hg, firstSome_single]
        | none => cases isTr <;> simp [firstSome, hg, firstSome_single]
  · intro stack v outer mids inner hp hv hmids hinner
    unfold observedValue
    have houter : resolveContextArg isTr g (ctxLookup stack) outer
        = some v := by
      unfold resolveContextArg
      rw [hp]
      simp only [if_true]
      rw [hv]
    have hstack : ctxLookup
        (stackAfter isTr g
          (resolveContextArg isTr g (ctxLookup stack) outer :: stack) mids)
        = some v := by
      apply ctxLookup_stackAfter_unset
      · rw [houter]; rfl
      · exact hmids
    simp only [stackAfter]
    exact resolve_unset_inherits isTr g v _ inner hstack hinner
  · intro stack w calls inner hp hw
    unfold observedValue resolveContextArg
    rw [hp]
    simp only [if_true]
    rw [hw]

/-- C3 witness: with the sticky global unset, `training = true` passed at the
outermost of four nested calls and not passed (or passed as `None`) below,
the innermost layer observes `true`; passing `training = false` explicitly at
the innermost call overrides the outer value. -/
theorem call_context_priority_and_propagation_witness :
    observedValue true (none : Option Bool) []
      [⟨true, some true, none⟩, ⟨false, none, none⟩, ⟨true, none, some false⟩]
      ⟨false, none, some false⟩ = some true
    ∧ observedValue true (none : Option Bool) []
      [⟨true, some true, none⟩, ⟨false, none, none⟩, ⟨true, none, some false⟩]
      ⟨true, some false, none⟩ = some false := by
  constructor
  · exact (call_context_priority_and_propagation true none).2.1 [] true
      ⟨true, some true, none⟩
      [⟨false, none, none⟩, ⟨true, none, some false⟩]
      ⟨false, none, some false⟩ rfl rfl (by decide) rfl
  · exact (call_context_priority_and_propagation true none).2.2 []
      false [⟨true, some true, none⟩, ⟨false, none, none⟩,
        ⟨true, none, some false⟩] ⟨true, some false, none⟩ rfl rfl

/-! ## C4: graph-assembly validation -/

/-- C4 counterexample: the repository's own
`functional_test.py:1518-1529` (`test_disconnected_inputs`) builds a
functional model whose second requested input is not reachable from the
requested outputs, and asserts that construction succeeds: assembly accepts
it, contradicting the claim that every requested input must be reachable
from the requested outputs on pain of a "disconnected graph" error.
(Tensor 0 is input `a`, tensor 1 the unused input `b`, tensor 2 the dense
output; the single node consumes 0 and produces 2.) -/
theorem unused_input_accepted_without_error :
    assembleGraph [⟨[0], [2]⟩] [0, 1] [2] = .ok ()
    ∧ reachableFromOutputs [⟨[0], [2]⟩] [2] 1 = false := by
  exact ⟨rfl, rfl⟩

/-- C4 (amended): assembly validation raises "redundant inputs" exactly when
the requested input list repeats a reference; with distinct inputs it
succeeds iff every requested output is computable from the requested inputs
through producing nodes — so an output depending on a tensor that is neither
an input nor produced raises "disconnected graph", while an extra input
unused by the outputs is accepted; and repeated (aliased) outputs never
change the verdict. -/
theorem assemble_validation (nodes : List GNode) (inputs outputs : List Nat) :
    (hasDupId inputs = true →
      assembleGraph nodes inputs outputs = .error .redundantInputs)
    ∧ (hasDupId inputs = false →
        ((assembleGraph nodes inputs outputs = .ok ()
            ↔ ∀ o ∈ outputs,
                computableT nodes inputs (nodes.length + 1) o = true)
          ∧ (assembleGraph nodes inputs outputs
                = .error .disconnectedGraph
              ↔ ∃ o ∈ outputs,
                  computableT nodes inputs (nodes.length + 1) o = false)))
    ∧ assembleGraph nodes inputs (outputs ++ outputs)
        = assembleGraph nodes inputs outputs := by
  refine ⟨?_, ?_, ?_⟩
  · intro h
    unfold assembleGraph
    rw [if_pos h]
  · intro h
    unfold assembleGraph
    rw [if_neg (by simp [h])]
    by_cases hall :
        outputs.all (computableT nodes inputs (nodes.length + 1)) = true
    · rw [if_pos hall]
      constructor
      · simpa using List.all_eq_true.mp hall
      · constructor
        · intro hc; cases hc
        · intro ⟨o, ho, hco⟩
          have := List.all_eq_true.mp hall o ho
          rw [hco] at this
          cases this
    · rw [if_neg hall]
      constructor
      · constructor
        · intro hc; cases hc
        · intro hc
          exact absurd (List.all_eq_true.mpr (fun o ho => hc o ho)) hall
      · constructor
        · intro _
          by_contra hne
          push_neg at hne
          apply hall
          apply List.all_eq_true.mpr
          intro o ho
          cases hcomp : computableT nodes inputs (nodes.length + 1) o with
          | false => exact absurd hcomp (hne o ho)
          | true => rfl
        · intro _; rfl
  · unfold assembleGraph
    by_cases hd : hasDupId inputs = true
    · rw [if_pos hd, if_pos hd]
    · rw [if_neg hd, if_neg hd]
      rw [List.all_append, Bool.and_self]

/-- C4 witness, on the A → B → C chain of `test_invalid_graphs`
(tensor 0 the input placeholder, tensor 3 an unrelated placeholder):
duplicated inputs `[0, 0]` are rejected as redundant; with input `[0]` the
output `2` is computable and assembly succeeds; with the unrelated input
`[3]` the output is not computable and assembly reports a disconnected
graph; aliasing the output changes nothing. -/
theorem assemble_validation_witness :
    assembleGraph [⟨[0], [1]⟩, ⟨[1], [2]⟩] [0, 0] [2]
        = .error .redundantInputs
    ∧ assembleGraph [⟨[0], [1]⟩, ⟨[1], [2]⟩] [0] [2] = .ok ()
    ∧ assembleGraph [⟨[0], [1]⟩, ⟨[1], [2]⟩] [3] [2]
        = .error .disconnectedGraph
    ∧ assembleGraph [⟨[0], [1]⟩, ⟨[1], [2]⟩] [0] ([2] ++ [2])
        = assembleGraph [⟨[0], [1]⟩, ⟨[1], [2]⟩] [0] [2] := by
  refine ⟨?_, ?_, ?_, ?_⟩
  · exact (assemble_validation [⟨[0], [1]⟩, ⟨[1], [2]⟩] [0, 0] [2]).1
      (by decide)
  · exact (((assemble_validation [⟨[0], [1]⟩, ⟨[1], [2]⟩] [0] [2]).2.1
      (by decide)).1).mpr (by decide)
  · exact (((assemble_validation [⟨[0], [1]⟩, ⟨[1], [2]⟩] [3] [2]).2.1
      (by decide)).2).mpr (by decide)
  · exact (assemble_validation [⟨[0], [1]⟩, ⟨[1], [2]⟩] [0] [2]).2.2

/-! ## C6: autocast input casting -/

/-- C6 counterexample: a layer whose dtype policy is integer (`int32`
compute and storage dtype) with the autocast flag set receives a `float32`
tensor — a floating-point input whose dtype differs from the compute
dtype — yet `_maybe_cast_inputs` leaves it unchanged, because the code
additionally requires the compute dtype itself to be floating
(base_layer.py:2854-2858); the claim as stated would require a cast to the
compute dtype here. -/
theorem autocast_skipped_for_integer_compute_dtype :
    TDType.isFloating .f32 = true
    ∧ TDType.f32 ≠ TDType.i32
    ∧ maybeCastInputs true ⟨some .i32, some .i32⟩ (.leaf (.tensor .f32))
        = .leaf (.tensor .f32) := by
  exact ⟨rfl, by decide, rfl⟩

/-- C6 (amended): for a layer with the autocast flag set whose compute dtype
is itself floating-point, every input leaf goes through
`_cast_single_input`: floating tensor leaves with a differing dtype are cast
to the compute dtype, tensor leaves already at the compute dtype or
non-floating, and non-tensor leaves, are unchanged; and the storage dtype a
weight is created at depends only on the variable dtype of the policy, not
on its compute dtype. -/
theorem autocast_casts_differing_floating_inputs (ac : Bool)
    (pol : DtypePolicy) (c : TDType) (inputs : Nest CastLeaf)
    (hac : ac = true) (hc : pol.computeDtype = some c)
    (hf : c.isFloating = true) :
    maybeCastInputs ac pol inputs = mapNest (castSingleInput pol) inputs
    ∧ (∀ d, d.isFloating = true → d ≠ c →
        castSingleInput pol (.tensor d) = .tensor c)
    ∧ (∀ d, d.isFloating = false →
        castSingleInput pol (.tensor d) = .tensor d)
    ∧ castSingleInput pol (.tensor c) = .tensor c
    ∧ castSingleInput pol .nonTensor = .nonTensor
    ∧ (∀ pol2 : DtypePolicy, pol2.variableDtype = pol.variableDtype →
        addWeightStorageDtype pol2 none = addWeightStorageDtype pol none) := by
  refine ⟨?_, ?_, ?_, ?_, ?_, ?_⟩
  · simp only [maybeCastInputs, hac, hc, hf, Option.isSome_some,
      Bool.and_self, Bool.true_and]
    by_cases hany :
        (flattenNest inputs).any (shouldCastSingleInput pol) = true
    · rw [if_pos hany]
    · rw [if_neg hany]
      have hforall := fun x hx =>
        Bool.eq_false_iff.mpr fun hcast =>
          hany (List.any_eq_true.mpr ⟨x, hx, hcast⟩)
      symm
      apply mapNest_eq_self
      intro x hx
      unfold castSingleInput
      rw [if_neg (by simp [hforall x hx])]
  · intro d hd hne
    simp [castSingleInput, shouldCastSingleInput, hc, hd, hne]
  · intro d hd
    simp [castSingleInput, shouldCastSingleInput, hc, hd]
  · simp [castSingleInput, shouldCastSingleInput, hc]
  · simp [castSingleInput, shouldCastSingleInput]
  · intro pol2 hvar
    simp [addWeightStorageDtype, hvar]

/-- C6 witness: a `mixed_float16`-style policy (compute `float16`, storage
`float32`) on a structure holding a `float32` tensor, a non-tensor leaf, a
`float16` tensor and an `int32` tensor; the `float32` leaf is cast to
`float16`, the rest stay, and the weight storage dtype matches any policy
with the same variable dtype. -/
theorem autocast_casts_differing_floating_inputs_witness :
    maybeCastInputs true ⟨some .f16, some .f32⟩
        (.cons (.leaf (.tensor .f32)) (.cons (.leaf .nonTensor)
          (.cons (.leaf (.tensor .f16)) (.cons (.leaf (.tensor .i32)) .nil))))
      = mapNest (castSingleInput ⟨some .f16, some .f32⟩)
        (.cons (.leaf (.tensor .f32)) (.cons (.leaf .nonTensor)
          (.cons (.leaf (.tensor .f16)) (.cons (.leaf (.tensor .i32)) .nil))))
    ∧ castSingleInput ⟨some .f16, some .f32⟩ (.tensor .f32) = .tensor .f16
    ∧ addWeightStorageDtype ⟨some .f16, some .f32⟩ none
        = addWeightStorageDtype ⟨some .f32, some .f32⟩ none := by
  refine ⟨?_, ?_, ?_⟩
  · exact (autocast_casts_differing_floating_inputs true
      ⟨some .f16, some .f32⟩ .f16
      (.cons (.leaf (.tensor .f32)) (.cons (.leaf .nonTensor)
        (.cons (.leaf (.tensor .f16)) (.cons (.leaf (.tensor .i32)) .nil))))
      rfl rfl rfl).1
  · exact (autocast_casts_differing_floating_inputs true
      ⟨some .f16, some .f32⟩ .f16 .nil rfl rfl rfl).2.1 .f32 rfl (by decide)
  · exact ((autocast_casts_differing_floating_inputs true
      ⟨some .f32, some .f32⟩ .f32 .nil rfl rfl rfl).2.2.2.2.2
      ⟨some .f16, some .f32⟩ rfl).symm

/-! ## C7: loading persisted variable values -/

theorem map_value_zipWith_assign :
    ∀ (vars : List StoreVar) (store : List Int),
      store.length = vars.length →
      ((vars.zipWith (fun v x => { v with value := x }) store).map
          (·.value)) = store := by
  intro vars
  induction vars with
  | nil =>
    intro store h
    cases store with
    | nil => rfl
    | cons s ss => simp at h
  | cons v vs ih =>
    intro store h
    cases store with
    | nil => simp at h
    | cons s ss =>
      simp only [List.zipWith, List.map]
      rw [ih ss (by simpa using h)]

theorem map_vname_zipWith_assign :
    ∀ (vars : List StoreVar) (store : List Int),
      store.length = vars.length →
      ((vars.zipWith (fun v x => { v with value := x }) store).map
          (·.vname)) = vars.map (·.vname) := by
  intro vars
  induction vars with
  | nil => intro store _; cases store <;> rfl
  | cons v vs ih =>
    intro store h
    cases store with
    | nil => simp at h
    | cons s ss =>
      simp only [List.zipWith, List.map]
      rw [ih ss (by simpa using h)]

/-- C7: `load_own_variables` fails loudly — it raises an error naming the
layer exactly when the number of stored values differs from the layer's
current variable count (trainable plus non-trainable); when the counts
match, every variable is assigned from the store by ordinal position in the
trainable-then-non-trainable order (names, split point and order
preserved). -/
theorem load_own_variables_checks_count (l : VarLayer) (store : List Int) :
    (store.length ≠ (l.trainableVars ++ l.nonTrainableVars).length →
      loadOwnVariables l store = .error (.varCountMismatch l.name
        (l.trainableVars ++ l.nonTrainableVars).length store.length))
    ∧ (store.length = (l.trainableVars ++ l.nonTrainableVars).length →
        ∃ l2, loadOwnVariables l store = .ok l2
          ∧ l2.name = l.name
          ∧ (l2.trainableVars ++ l2.nonTrainableVars).map (·.value) = store
          ∧ (l2.trainableVars ++ l2.nonTrainableVars).map (·.vname)
              = (l.trainableVars ++ l.nonTrainableVars).map (·.vname)
          ∧ l2.trainableVars.length = l.trainableVars.length) := by
  constructor
  · intro hne
    unfold loadOwnVariables
    rw [if_pos hne]
  · intro heq
    have hassigned :
        ((l.trainableVars ++ l.nonTrainableVars).zipWith
            (fun v x => { v with value := x }) store).length
          = (l.trainableVars ++ l.nonTrainableVars).length := by
      rw [List.length_zipWith, heq, Nat.min_self]
    refine ⟨⟨l.name,
        ((l.trainableVars ++ l.nonTrainableVars).zipWith
          (fun v x => { v with value := x }) store).take
            l.trainableVars.length,
        ((l.trainableVars ++ l.nonTrainableVars).zipWith
          (fun v x => { v with value := x }) store).drop
            l.trainableVars.length⟩, ?_, rfl, ?_, ?_, ?_⟩
    · unfold loadOwnVariables
      rw [if_neg (by simp [heq])]
    · simp only [List.take_append_drop]
      exact map_value_zipWith_assign _ _ heq
    · simp only [List.take_append_drop]
      exact map_vname_zipWith_assign _ _ heq
    · simp only [List.length_take, hassigned]
      rw [List.length_append]
      exact Nat.min_eq_left (Nat.le_add_right _ _)

/-- C7 witness: a layer with one trainable and one non-trainable variable
rejects a one-value store naming itself, and accepts a two-value store,
assigning by position. -/
theorem load_own_variables_checks_count_witness :
    loadOwnVariables ⟨"dense", [⟨"kernel", 1⟩], [⟨"count", 2⟩]⟩ [5]
        = .error (.varCountMismatch "dense" 2 1)
    ∧ ∃ l2, loadOwnVariables ⟨"dense", [⟨"kernel", 1⟩], [⟨"count", 2⟩]⟩ [5, 6]
        = .ok l2
        ∧ l2.name = "dense"
        ∧ (l2.trainableVars ++ l2.nonTrainableVars).map (·.value) = [5, 6]
        ∧ (l2.trainableVars ++ l2.nonTrainableVars).map (·.vname)
            = ["kernel", "count"]
        ∧ l2.trainableVars.length = 1 := by
  constructor
  · exact (load_own_variables_checks_count
      ⟨"dense", [⟨"kernel", 1⟩], [⟨"count", 2⟩]⟩ [5]).1 (by decide)
  · exact (load_own_variables_checks_count
      ⟨"dense", [⟨"kernel", 1⟩], [⟨"count", 2⟩]⟩ [5, 6]).2 (by decide)

/-! ## C8: reference-counted attribute tracking -/

theorem find?_filter_of_imp {α : Type} (p q : α → Bool) (l : List α)
    (h : ∀ x, p x = true → q x = true) :
    (l.filter q).find? p = l.find? p := by
  induction l with
  | nil => rfl
  | cons a l ih =>
    by_cases hq : q a = true
    · rw [List.filter_cons_of_pos hq]
      by_cases hp : p a = true
      · rw [List.find?_cons_of_pos _ hp, List.find?_cons_of_pos _ hp]
      · rw [List.find?_cons_of_neg _ (by simpa using hp),
          List.find?_cons_of_neg _ (by simpa using hp), ih]
    · have hp : ¬ p a = true := fun hpa => hq (h a hpa)
      rw [List.filter_cons_of_neg (by simpa using hq),
        List.find?_cons_of_neg _ (by simpa using hp), ih]

theorem rcGet_rcSet_self (rc : List (Nat × Nat)) (k v : Nat) :
    rcGet (rcSet rc k v) k = some v := by
  unfold rcGet rcSet
  rw [List.find?_cons_of_pos _ (by simp)]

theorem rcGet_rcSet_ne (rc : List (Nat × Nat)) (k v k' : Nat)
    (hne : k' ≠ k) :
    rcGet (rcSet rc k v) k' = rcGet rc k' := by
  unfold rcGet rcSet
  rw [List.find?_cons_of_neg _
    (by simp only [beq_iff_eq]; exact fun h => hne h.symm)]
  rw [find?_filter_of_imp]
  intro x hx
  simp only [beq_iff_eq] at hx
  simp only [hx, ne_eq, decide_eq_true_eq]
  exact hne

theorem rcGet_rcRemove_self (rc : List (Nat × Nat)) (k : Nat) :
    rcGet (rcRemove rc k) k = none := by
  unfold rcGet rcRemove
  rw [List.find?_eq_none.mpr]
  intro x hx
  rcases List.mem_filter.mp hx with ⟨-, hq⟩
  simp only [decide_eq_true_eq] at hq
  simp [hq]

theorem not_mem_filter_ne (l : List Nat) (x : Nat) :
    x ∉ l.filter (fun w => w ≠ x) := by
  intro hx
  rcases List.mem_filter.mp hx with ⟨-, hq⟩
  simp at hq

theorem mem_listInsertAt (l : List Nat) (i x a : Nat) :
    a ∈ listInsertAt l i x ↔ a ∈ l ∨ a = x := by
  unfold listInsertAt
  have hld : a ∈ l ↔ a ∈ l.take i ∨ a ∈ l.drop i := by
    rw [← List.mem_append, List.take_append_drop]
  simp only [List.mem_append, List.mem_cons, hld]
  tauto

theorem trackNewValue_refCounts (s : TrackState) (value : PyObj)
    (position : Option Nat) :
    (trackNewValue s value position).refCounts = s.refCounts := by
  unfold trackNewValue trackVariablePhase trackLayerPhase
  cases value.kind <;> (repeat' split) <;> rfl

theorem trackNewValue_mem_other (s : TrackState) (value : PyObj)
    (position : Option Nat) (o : Nat) (ho : o ≠ value.oid) :
    (o ∈ (trackNewValue s value position).trainableWs ↔ o ∈ s.trainableWs)
    ∧ (o ∈ (trackNewValue s value position).nonTrainableWs
        ↔ o ∈ s.nonTrainableWs)
    ∧ (o ∈ (trackNewValue s value position).trackedTrackables
        ↔ o ∈ s.trackedTrackables) := by
  refine ⟨?_, ?_, ?_⟩ <;>
    (unfold trackNewValue trackVariablePhase trackLayerPhase
     cases hk : value.kind <;> (repeat' split) <;>
       simp_all [mem_listInsertAt, List.mem_append])

theorem delattrL_decrement (s : TrackState) (name : String) (obj : PyObj)
    (n : Nat) (hattr : attrGet s.attrs name = some obj)
    (hrc : rcGet s.refCounts obj.oid = some n) (h2 : 2 ≤ n) :
    (delattrL s name).refCounts = rcSet s.refCounts obj.oid (n - 1)
    ∧ (delattrL s name).trackedTrackables = s.trackedTrackables
    ∧ (delattrL s name).trainableWs = s.trainableWs
    ∧ (delattrL s name).nonTrainableWs = s.nonTrainableWs := by
  have hgt : n > 1 := h2
  refine ⟨?_, ?_, ?_, ?_⟩ <;> simp only [delattrL, hattr, hrc, if_pos hgt]

theorem delattrL_last (s : TrackState) (name : String) (obj : PyObj)
    (hattr : attrGet s.attrs name = some obj)
    (hrc : rcGet s.refCounts obj.oid = some 1) :
    rcGet (delattrL s name).refCounts obj.oid = none
    ∧ (obj.kind = .layerObj →
        obj.oid ∉ (delattrL s name).trackedTrackables)
    ∧ (obj.kind = .varTrainable ∨ obj.kind = .varNonTrainable →
        obj.oid ∉ (delattrL s name).trainableWs
        ∧ obj.oid ∉ (delattrL s name).nonTrainableWs) := by
  have hgt : ¬ (1 > 1) := by decide
  refine ⟨?_, fun hl => ?_, fun hv => ?_⟩
  · simp only [delattrL, hattr, hrc, if_neg hgt]
    cases hkk : obj.kind <;> simp [hkk, rcGet_rcRemove_self]
  · simp only [delattrL, hattr, hrc, if_neg hgt, hl]
    simp [List.mem_filter]
  · rcases hv with hv | hv <;>
      (simp only [delattrL, hattr, hrc, if_neg hgt, hv]
       constructor <;> simp [List.mem_filter])

/-- C8: attribute tracking is reference-counted.  For an object held under an
attribute with reference count `n`: deleting (or reassigning) one of several
references (`2 ≤ n`) decrements the count and leaves the tracked collections
(`_self_tracked_trackables`, `_trainable_weights`, `_non_trainable_weights`)
unchanged — in particular the object stays tracked; deleting or reassigning
the last reference (`n = 1`) drops the count and removes the object from the
collections matching its kind. -/
theorem attribute_tracking_is_refcounted (s : TrackState) (name : String)
    (obj : PyObj) (n : Nat)
    (hattr : attrGet s.attrs name = some obj)
    (hrc : rcGet s.refCounts obj.oid = some n) :
    (2 ≤ n →
      rcGet (delattrL s name).refCounts obj.oid = some (n - 1)
      ∧ (delattrL s name).trackedTrackables = s.trackedTrackables
      ∧ (delattrL s name).trainableWs = s.trainableWs
      ∧ (delattrL s name).nonTrainableWs = s.nonTrainableWs)
    ∧ (n = 1 →
      rcGet (delattrL s name).refCounts obj.oid = none
      ∧ (obj.kind = .layerObj →
          obj.oid ∉ (delattrL s name).trackedTrackables)
      ∧ (obj.kind = .varTrainable ∨ obj.kind = .varNonTrainable →
          obj.oid ∉ (delattrL s name).trainableWs
          ∧ obj.oid ∉ (delattrL s name).nonTrainableWs))
    ∧ (∀ newObj : PyObj, newObj.oid ≠ obj.oid →
        (2 ≤ n →
          rcGet (setattrL s name newObj).refCounts obj.oid = some (n - 1)
          ∧ (obj.oid ∈ (setattrL s name newObj).trackedTrackables
              ↔ obj.oid ∈ s.trackedTrackables)
          ∧ (obj.oid ∈ (setattrL s name newObj).trainableWs
              ↔ obj.oid ∈ s.trainableWs)
          ∧ (obj.oid ∈ (setattrL s name newObj).nonTrainableWs
              ↔ obj.oid ∈ s.nonTrainableWs))
        ∧ (n = 1 →
          rcGet (setattrL s name newObj).refCounts obj.oid = none
          ∧ (obj.kind = .layerObj →
              obj.oid ∉ (setattrL s name newObj).trackedTrackables)
          ∧ (obj.kind = .varTrainable ∨ obj.kind = .varNonTrainable →
              obj.oid ∉ (setattrL s name newObj).trainableWs
              ∧ obj.oid ∉ (setattrL s name newObj).nonTrainableWs))) := by
  refine ⟨?_, ?_, ?_⟩
  · intro h2
    obtain ⟨d1, d2, d3, d4⟩ := delattrL_decrement s name obj n hattr hrc h2
    refine ⟨?_, d2, d3, d4⟩
    rw [d1]
    exact rcGet_rcSet_self _ _ _
  · intro h1
    subst h1
    exact delattrL_last s name obj hattr hrc
  · intro newObj hne
    have hne' : obj.oid ≠ newObj.oid := hne.symm
    have hattr1 : attrGet ({ s with refCounts := rcSet s.refCounts newObj.oid ((rcGet s.refCounts newObj.oid).getD 0 + 1) } : TrackState).attrs name = some obj := hattr
    have hrc1 : rcGet ({ s with refCounts := rcSet s.refCounts newObj.oid ((rcGet s.refCounts newObj.oid).getD 0 + 1) } : TrackState).refCounts obj.oid = some n := by
      show rcGet (rcSet s.refCounts newObj.oid ((rcGet s.refCounts newObj.oid).getD 0 + 1)) obj.oid = some n
      rw [rcGet_rcSet_ne _ _ _ _ hne']
      exact hrc
    have hm := trackNewValue_mem_other
      (delattrL { s with refCounts := rcSet s.refCounts newObj.oid ((rcGet s.refCounts newObj.oid).getD 0 + 1) } name)
      newObj
      (positionOfReplaced { s with refCounts := rcSet s.refCounts newObj.oid ((rcGet s.refCounts newObj.oid).getD 0 + 1) } name newObj)
      obj.oid hne'
    have hrcfinal : (setattrL s name newObj).refCounts
        = (delattrL { s with refCounts := rcSet s.refCounts newObj.oid ((rcGet s.refCounts newObj.oid).getD 0 + 1) } name).refCounts := by
      show (trackNewValue _ newObj _).refCounts = _
      exact trackNewValue_refCounts _ _ _
    constructor
    · intro h2
      obtain ⟨d1, d2, d3, d4⟩ := delattrL_decrement _ name obj n hattr1 hrc1 h2
      refine ⟨?_, ?_, ?_, ?_⟩
      · rw [hrcfinal, d1, rcGet_rcSet_self]
      · have := hm.2.2
        rw [show (setattrL s name newObj).trackedTrackables
            = (trackNewValue _ newObj _).trackedTrackables from rfl] at *
        rw [this, d2]
      · have := hm.1
        rw [show (setattrL s name newObj).trainableWs
            = (trackNewValue _ newObj _).trainableWs from rfl] at *
        rw [this, d3]
      · have := hm.2.1
        rw [show (setattrL s name newObj).nonTrainableWs
            = (trackNewValue _ newObj _).nonTrainableWs from rfl] at *
        rw [this, d4]
    · intro h1
      subst h1
      obtain ⟨l1, l2, l3⟩ := delattrL_last _ name obj hattr1 hrc1
      refine ⟨?_, ?_, ?_⟩
      · rw [hrcfinal]
        exact l1
      · intro hl
        have := hm.2.2
        rw [show (setattrL s name newObj).trackedTrackables
            = (trackNewValue _ newObj _).trackedTrackables from rfl]
        rw [this]
        exact l2 hl
      · intro hv
        obtain ⟨lv1, lv2⟩ := l3 hv
        constructor
        · rw [show (setattrL s name newObj).trainableWs
              = (trackNewValue _ newObj _).trainableWs from rfl]
          rw [hm.1]
          exact lv1
        · rw [show (setattrL s name newObj).nonTrainableWs
              = (trackNewValue _ newObj _).nonTrainableWs from rfl]
          rw [hm.2.1]
          exact lv2

/-- C8 witness: variable 5 held under attributes `a` and `b` (count 2):
deleting `a` leaves count 1 and the variable still tracked in
`_trainable_weights`; from a state where only `b` remains (count 1),
deleting `b` removes it. -/
theorem attribute_tracking_is_refcounted_witness :
    rcGet (delattrL ⟨[("a", ⟨5, .varTrainable⟩), ("b", ⟨5, .varTrainable⟩)],
        [(5, 2)], [], [5], []⟩ "a").refCounts 5 = some 1
    ∧ (delattrL ⟨[("a", ⟨5, .varTrainable⟩), ("b", ⟨5, .varTrainable⟩)],
        [(5, 2)], [], [5], []⟩ "a").trainableWs = [5]
    ∧ 5 ∉ (delattrL ⟨[("b", ⟨5, .varTrainable⟩)], [(5, 1)], [], [5], []⟩
        "b").trainableWs := by
  refine ⟨?_, ?_, ?_⟩
  · exact ((attribute_tracking_is_refcounted
      ⟨[("a", ⟨5, .varTrainable⟩), ("b", ⟨5, .varTrainable⟩)],
        [(5, 2)], [], [5], []⟩ "a" ⟨5, .varTrainable⟩ 2
      (by decide) (by decide)).1 (by decide)).1
  · exact ((attribute_tracking_is_refcounted
      ⟨[("a", ⟨5, .varTrainable⟩), ("b", ⟨5, .varTrainable⟩)],
        [(5, 2)], [], [5], []⟩ "a" ⟨5, .varTrainable⟩ 2
      (by decide) (by decide)).1 (by decide)).2.2.1
  · exact (((attribute_tracking_is_refcounted
      ⟨[("b", ⟨5, .varTrainable⟩)], [(5, 1)], [], [5], []⟩ "b"
      ⟨5, .varTrainable⟩ 1 (by decide) (by decide)).2.1 rfl).2.2
      (Or.inl rfl)).1

/-! ## C9: weight gathering and deduplication -/

theorem dedupWeights_go_mem :
    ∀ (ws seen : List Nat) (x : Nat),
      x ∈ dedupWeights.go seen ws ↔ (x ∈ ws ∧ x ∉ seen) := by
  intro ws
  induction ws with
  | nil => intro seen x; simp [dedupWeights.go]
  | cons w rest ih =>
    intro seen x
    by_cases hw : seen.contains w
    · rw [dedupWeights.go, if_pos hw]
      rw [ih]
      have hwseen : w ∈ seen := by simpa using hw
      constructor
      · rintro ⟨hx, hns⟩
        exact ⟨List.mem_cons_of_mem _ hx, hns⟩
      · rintro ⟨hx, hns⟩
        rcases List.mem_cons.mp hx with hx | hx
        · subst hx; exact absurd hwseen hns
        · exact ⟨hx, hns⟩
    · rw [dedupWeights.go, if_neg hw]
      simp only [List.mem_cons, ih]
      constructor
      · rintro (hx | ⟨hx, hns⟩)
        · subst hx
          exact ⟨Or.inl rfl, by simpa using hw⟩
        · refine ⟨Or.inr hx, fun hs => hns (Or.inr hs)⟩
      · rintro ⟨hx | hx, hns⟩
        · exact Or.inl hx
        · by_cases hxw : x = w
          · exact Or.inl hxw
          · exact Or.inr ⟨hx, by simp [hxw, hns]⟩

theorem dedupWeights_go_nodup :
    ∀ (ws seen : List Nat), (dedupWeights.go seen ws).Nodup := by
  intro ws
  induction ws with
  | nil => intro seen; exact List.nodup_nil
  | cons w rest ih =>
    intro seen
    by_cases hw : seen.contains w
    · rw [dedupWeights.go, if_pos hw]
      exact ih seen
    · rw [dedupWeights.go, if_neg hw]
      refine List.nodup_cons.mpr ⟨?_, ih (w :: seen)⟩
      intro hmem
      exact ((dedupWeights_go_mem rest (w :: seen) w).mp hmem).2 (by simp)

theorem mem_dedupWeights (ws : List Nat) (x : Nat) :
    x ∈ dedupWeights ws ↔ x ∈ ws := by
  unfold dedupWeights
  rw [dedupWeights_go_mem]
  simp

theorem dedupWeights_nodup (ws : List Nat) : (dedupWeights ws).Nodup :=
  dedupWeights_go_nodup ws []

/-- C9 counterexample: a trainable layer owning variable 0 in its trainable
bucket, with a frozen (`trainable = False`) sub-layer sharing the same
variable 0.  `trainable_weights` yields `[0]` (own bucket) and
`non_trainable_weights` yields `[0]` again (the frozen child's
`variables`); `weights`, being plain concatenation without cross-list
deduplication (base_layer.py:1410), lists the variable twice —
contradicting the claim that no variable appears twice in `weights`. -/
theorem shared_variable_appears_twice_in_weights :
    layerWeights (.mk true [0] [] [.mk false [0] [] []]) = [0, 0]
    ∧ ¬ (layerWeights (.mk true [0] [] [.mk false [0] [] []])).Nodup := by
  exact ⟨rfl, by decide⟩

/-- C9 (amended): for a frozen layer (`trainable = False`),
`trainable_weights` is empty and `non_trainable_weights` contains exactly
the layer's own variables — trainable bucket included — plus all child
variables; for every layer, `weights` is `trainable_weights` followed by
`non_trainable_weights`, each of the two lists being internally
deduplicated by object identity (no dedup across the two lists). -/
theorem weights_gathering (L : LayerTree) :
    (L.trainable = false →
      layerTrainableWeights L = []
      ∧ (∀ v, v ∈ layerNonTrainableWeights L ↔
          (v ∈ L.ownTrainable ∨ v ∈ L.ownNonTrainable
            ∨ v ∈ gatherVariables L.children)))
    ∧ layerWeights L
        = layerTrainableWeights L ++ layerNonTrainableWeights L
    ∧ (layerTrainableWeights L).Nodup
    ∧ (layerNonTrainableWeights L).Nodup := by
  obtain ⟨t, ot, ont, cs⟩ := L
  refine ⟨?_, rfl, ?_, ?_⟩
  · intro ht
    cases t with
    | true => cases ht
    | false =>
      refine ⟨rfl, fun v => ?_⟩
      show v ∈ dedupWeights (ot ++ ont ++ gatherVariables cs) ↔ _
      rw [mem_dedupWeights]
      simp [LayerTree.ownTrainable, LayerTree.ownNonTrainable,
        LayerTree.children, List.mem_append, or_assoc]
  · cases t with
    | true => exact dedupWeights_nodup _
    | false => exact List.nodup_nil
  · cases t with
    | true => exact dedupWeights_nodup _
    | false => exact dedupWeights_nodup _

/-- C9 witness: a frozen layer owning variable 1 in the trainable bucket and
variable 2 in the non-trainable bucket exposes no trainable weights, and
both variables through `non_trainable_weights`. -/
theorem weights_gathering_witness :
    layerTrainableWeights (.mk false [1] [2] []) = []
    ∧ (1 ∈ layerNonTrainableWeights (.mk false [1] [2] [])
        ↔ (1 ∈ [1] ∨ 1 ∈ [2] ∨ (1 : Nat) ∈ gatherVariables []))
    ∧ (layerNonTrainableWeights (.mk false [1] [2] [])).Nodup := by
  refine ⟨?_, ?_, ?_⟩
  · exact ((weights_gathering (.mk false [1] [2] [])).1 rfl).1
  · exact ((weights_gathering (.mk false [1] [2] [])).1 rfl).2 1
  · exact (weights_gathering (.mk false [1] [2] [])).2.2.2

/-! ## C10: atomicity of `set_weights` -/

theorem expectedNumWeights_no_handlers :
    ∀ ps : List WParam, (∀ p ∈ ps, p.isHandler = false) →
      expectedNumWeights ps = ps.length := by
  intro ps
  induction ps with
  | nil => intro _; rfl
  | cons p rest ih =>
    intro h
    cases p with
    | handlerW k vs =>
      have := h _ (List.mem_cons_self _ _)
      simp [WParam.isHandler] at this
    | normalVar sh v =>
      show 1 + expectedNumWeights rest = rest.length + 1
      rw [ih (fun q hq => h q (List.mem_cons_of_mem _ hq)), Nat.add_comm]

theorem swLoop_no_handlers (lname : String) :
    ∀ (ps : List WParam) (ws : List WVal),
      (∀ p ∈ ps, p.isHandler = false) →
      ws.length = ps.length →
      (∀ e ps2, swLoop lname ps ws = .error (e, ps2) → ps2 = ps)
      ∧ (∀ ps2, swLoop lname ps ws = .ok ps2 →
          ps2.map WParam.wShape = ps.map WParam.wShape
          ∧ ps2.map WParam.wValue = ws.map (·.value)) := by
  intro ps
  induction ps with
  | nil =>
    intro ws _ hlen
    have hws : ws = [] := List.length_eq_zero.mp hlen
    subst hws
    constructor
    · intro e ps2 h
      simp [swLoop] at h
    · intro ps2 h
      simp only [swLoop] at h
      injection h with h
      subst h
      exact ⟨rfl, rfl⟩
  | cons p rest ih =>
    intro ws hnh hlen
    cases p with
    | handlerW k vs =>
      have := hnh _ (List.mem_cons_self _ _)
      simp [WParam.isHandler] at this
    | normalVar sh v =>
      cases ws with
      | nil => simp at hlen
      | cons w ws' =>
        have hlen' : ws'.length = rest.length := by simpa using hlen
        obtain ⟨ihe, iho⟩ :=
          ih ws' (fun q hq => hnh q (List.mem_cons_of_mem _ hq)) hlen'
        constructor
        · intro e ps2 h
          simp only [swLoop] at h
          by_cases hsh : sh = w.shape
          · rw [if_pos hsh] at h
            cases hrec : swLoop lname rest ws' with
            | ok r => rw [hrec] at h; cases h
            | error er =>
              obtain ⟨e2, r⟩ := er
              rw [hrec] at h
              injection h with h
              injection h with h1 h2
              rw [← h2, ihe e2 r hrec]
          · rw [if_neg hsh] at h
            injection h with h
            injection h with h1 h2
            exact h2.symm
        · intro ps2 h
          simp only [swLoop] at h
          by_cases hsh : sh = w.shape
          · rw [if_pos hsh] at h
            cases hrec : swLoop lname rest ws' with
            | error er => rw [hrec] at h; cases h
            | ok r =>
              rw [hrec] at h
              injection h with h
              subst h
              obtain ⟨hs, hv⟩ := iho r hrec
              constructor
              · simp only [List.map, WParam.wShape, hs]
              · simp only [List.map, WParam.wValue, hv]
          · rw [if_neg hsh] at h
            cases h
/-- C10 counterexample: a layer whose weights are a one-tensor
`TrackableWeightHandler` followed by an ordinary variable of shape `[2]`.
`set_weights` with a matching count but an incompatible second shape raises
the shape `ValueError` — yet the handler's value has already been assigned
inside the loop (base_layer.py:1870), changing layer state before the
error: the assignment is not atomic. -/
theorem handler_assigned_before_shape_error :
    setWeightsL ⟨"emb", [.handlerW 1 [7], .normalVar [2] 0]⟩
        [⟨[], 5⟩, ⟨[3], 9⟩]
      = .error (.shapeMismatch "emb" [2] [3],
          ⟨"emb", [.handlerW 1 [5], .normalVar [2] 0]⟩)
    ∧ ([WParam.handlerW 1 [5], .normalVar [2] 0]
        ≠ [WParam.handlerW 1 [7], .normalVar [2] 0]) := by
  exact ⟨rfl, by decide⟩

/-- C10 (amended): the count check always fires first, raising before any
assignment with the layer unchanged; and when none of the layer's weights is
a `TrackableWeightHandler`, `set_weights` is atomic on error — any error
leaves every variable unchanged, and on success every variable receives the
provided value positionally (assignment of ordinary variables happens only
after every shape check passed).  With handlers present, handler values are
assigned inline during the loop (the counterexample above). -/
theorem set_weights_atomic_without_handlers (l : WLayer) (ws : List WVal) :
    (ws.length ≠ expectedNumWeights l.wparams →
      setWeightsL l ws = .error
        (.lengthMismatch l.name ws.length (expectedNumWeights l.wparams), l))
    ∧ ((∀ p ∈ l.wparams, p.isHandler = false) →
        (∀ e l2, setWeightsL l ws = .error (e, l2) → l2 = l)
        ∧ (∀ l2, setWeightsL l ws = .ok l2 →
            l2.name = l.name
            ∧ l2.wparams.map WParam.wShape = l.wparams.map WParam.wShape
            ∧ l2.wparams.map WParam.wValue = ws.map (·.value))) := by
  constructor
  · intro hne
    unfold setWeightsL
    rw [if_pos hne]
  · intro hnh
    by_cases hlen : ws.length = expectedNumWeights l.wparams
    · have hlen' : ws.length = l.wparams.length := by
        rw [hlen, expectedNumWeights_no_handlers _ hnh]
      obtain ⟨he, ho⟩ := swLoop_no_handlers l.name l.wparams ws hnh hlen'
      constructor
      · intro e l2 h
        unfold setWeightsL at h
        rw [if_neg (by simp [hlen])] at h
        cases hrec : swLoop l.name l.wparams ws with
        | ok r => rw [hrec] at h; cases h
        | error er =>
          obtain ⟨e2, r⟩ := er
          rw [hrec] at h
          injection h with h
          injection h with h1 h2
          rw [← h2]
          obtain ⟨lname, lp⟩ := l
          simp only [WLayer.mk.injEq]
          exact ⟨trivial, he e2 r hrec⟩
      · intro l2 h
        unfold setWeightsL at h
        rw [if_neg (by simp [hlen])] at h
        cases hrec : swLoop l.name l.wparams ws with
        | error er => rw [hrec] at h; cases h
        | ok r =>
          rw [hrec] at h
          injection h with h
          subst h
          exact ⟨rfl, ho r hrec⟩
    · constructor
      · intro e l2 h
        unfold setWeightsL at h
        rw [if_pos hlen] at h
        injection h with h
        injection h with h1 h2
        exact h2.symm
      · intro l2 h
        unfold setWeightsL at h
        rw [if_pos hlen] at h
        cases h

/-- C10 witness: a layer with a single ordinary variable of shape `[2]`:
an empty value list is rejected for its count with the layer unchanged; a
matching list assigns the value; a shape-incompatible list errors with the
layer unchanged. -/
theorem set_weights_atomic_without_handlers_witness :
    setWeightsL ⟨"d", [.normalVar [2] 0]⟩ []
      = .error (.lengthMismatch "d" 0 1, ⟨"d", [.normalVar [2] 0]⟩)
    ∧ (∃ l2, setWeightsL ⟨"d", [.normalVar [2] 0]⟩ [⟨[2], 9⟩] = .ok l2
        ∧ l2.wparams.map WParam.wValue = [9])
    ∧ (⟨"d", [.normalVar [2] 0]⟩ : WLayer) = ⟨"d", [.normalVar [2] 0]⟩ := by
  refine ⟨?_, ?_, ?_⟩
  · exact (set_weights_atomic_without_handlers
      ⟨"d", [.normalVar [2] 0]⟩ []).1 (by decide)
  · exact ⟨⟨"d", [.normalVar [2] 9]⟩, rfl,
      (((set_weights_atomic_without_handlers
        ⟨"d", [.normalVar [2] 0]⟩ [⟨[2], 9⟩]).2 (by decide)).2
        ⟨"d", [.normalVar [2] 9]⟩ rfl).2.2⟩
  · exact ((set_weights_atomic_without_handlers
      ⟨"d", [.normalVar [2] 0]⟩ [⟨[3], 9⟩]).2 (by decide)).1
      (.shapeMismatch "d" [2] [3]) ⟨"d", [.normalVar [2] 0]⟩ rfl

end TFKeras
